import Mathlib

/- Verification of the frame-scheduling and result-marshalling subsystem of
   the mask_rcnn_ros node (nodes/mask_rcnn_node.py).

   The frame mailbox is the msg_lock protected last_msg slot shared by the
   image callback (producer) and the run loop (consumer); the result builder
   is the build_result_msg method; the scheduler is the run loop.  Machine
   integers of the source are modelled as Int (pixel coordinates, class ids)
   and Nat (sizes); confidence scores are copied verbatim by the code and
   are modelled as Rat; exceptions are modelled with Except. -/

/-- Frame mailbox deposit, modelling the image callback of the node
(mask_rcnn_node.py lines 159-163): the callback try-acquires the lock
(acquired is the outcome of the non-blocking acquire), on success it
overwrites last_msg with the new message, on contention it silently drops
the message and leaves the slot unchanged. -/
def image_callback {α : Type} (acquired : Bool) (msg : α) (lastMsg : Option α) : Option α :=
  if acquired then some msg else lastMsg

/-- Frame mailbox claim, modelling the drain step of the run loop
(mask_rcnn_node.py lines 85-91): the loop try-acquires the lock; on success
it takes the held message (first component of the result) and clears the
slot by writing none (second component); on contention it obtains nothing
and the slot is unchanged. -/
def mailboxClaim {α : Type} (acquired : Bool) (lastMsg : Option α) : Option α × Option α :=
  if acquired then (lastMsg, none) else (none, lastMsg)

/-- Effect on the mailbox slot of a sequence of deposit attempts, each
tagged with the outcome of its try-lock, with no intervening claim. -/
def depositSeq {α : Type} (s : Option α) : List (Bool × α) → Option α
  | [] => s
  | af :: fs => depositSeq (image_callback af.1 af.2 s) fs

/-- Messages of the successful deposit attempts of a sequence, in order. -/
def successes {α : Type} : List (Bool × α) → List α
  | [] => []
  | af :: fs => if af.1 then af.2 :: successes fs else successes fs

/-- Number of frames held in the mailbox slot. -/
def holdCount {α : Type} : Option α → Nat
  | none => 0
  | some _ => 1

/-- Events on the shared mailbox slot: a deposit attempt by the image
callback (with its try-lock outcome and its message) or a claim attempt by
the run loop (with its try-lock outcome). -/
inductive MEvent (α : Type) where
  | dep (ok : Bool) (msg : α)
  | clm (ok : Bool)
deriving DecidableEq

/-- Run a trace of mailbox events from a given slot state: returns the
final slot state and the list of frames the run loop obtained from its
claims (and hence processed), in order. -/
def runTrace {α : Type} : Option α → List (MEvent α) → Option α × List α
  | s, [] => (s, [])
  | s, MEvent.dep ok f :: es => runTrace (image_callback ok f s) es
  | s, MEvent.clm ok :: es =>
      let c := mailboxClaim ok s
      let r := runTrace c.2 es
      (r.1, c.1.toList ++ r.2)

/-- Messages of all deposit attempts in a trace, in order. -/
def depositsOf {α : Type} : List (MEvent α) → List α
  | [] => []
  | MEvent.dep _ f :: es => f :: depositsOf es
  | MEvent.clm _ :: es => depositsOf es

/-- Bounding box of one instance, in the source coordinate order
(y1, x1, y2, x2) = (top, left, bottom, right), integer pixel coordinates. -/
structure Box where
  y1 : Int
  x1 : Int
  y2 : Int
  x2 : Int
deriving DecidableEq

/-- Region of interest record of the result message, with the fields filled
in by build_result_msg (mask_rcnn_node.py lines 116-120). -/
structure RegionOfInterest where
  x_offset : Int
  y_offset : Int
  height : Int
  width : Int
deriving DecidableEq

/-- Boolean mask stack of shape (height, width, n): data r c i is the mask
membership of pixel (row r, column c) for instance i. -/
structure Mask3 where
  height : Nat
  width : Nat
  n : Nat
  data : Nat → Nat → Nat → Bool

/-- Detection set: the raw model output for one frame, parallel sequences
of boxes, class ids and scores, plus the mask stack. -/
structure DetectionSet where
  rois : List Box
  class_ids : List Int
  scores : List Rat
  masks : Mask3

/-- Camera image message: only its header (the opaque metadata token) is
read by build_result_msg, so only the header is modelled. -/
structure ImageMsg where
  header : Nat
deriving DecidableEq

/-- Result message mirroring the mask_rcnn_ros Result message: header plus
five positionally aligned per-instance collections. -/
structure ResultMsg where
  header : Nat
  boxes : List RegionOfInterest
  class_ids : List Int
  class_names : List String
  scores : List Rat
  masks : List (List Int)
deriving DecidableEq

/-- Python list indexing semantics, as in the class-name lookup of
build_result_msg (mask_rcnn_node.py line 126): a negative index wraps
around by the length of the list; an index out of range (below the negated
length, or at or above the length) yields none, which the source surfaces
as an IndexError. -/
def pyIndex {α : Type} (l : List α) (i : Int) : Option α :=
  let j : Int := if i < 0 then (l.length : Int) + i else i
  if 0 ≤ j then l[j.toNat]? else none

/-- Numpy style element access for the parallel arrays class_ids and
scores, indexed by the loop counter; out of bounds raises IndexError,
modelled as Except.error. -/
def npGet {α : Type} (l : List α) (i : Nat) : Except String α :=
  match l[i]? with
  | some x => Except.ok x
  | none => Except.error "IndexError: index out of bounds"

/-- Fields appended for one instance by one iteration of the loop of
build_result_msg. -/
structure Entry where
  box : RegionOfInterest
  class_id : Int
  class_name : String
  score : Rat
  mask : List Int
deriving DecidableEq

/-- Region computed from a box by build_result_msg (lines 116-120):
x_offset = x1, y_offset = y1, height = y2 - y1, width = x2 - x1. -/
def regionOfBox (b : Box) : RegionOfInterest :=
  { x_offset := b.x1, y_offset := b.y1, height := b.y2 - b.y1, width := b.x2 - b.x1 }

/-- Two dimensional integer mask written by the loop body (lines 133-134):
zeros of the frame extent with the pixels of mask instance i set to the
class id. -/
def mask_msg (m : Mask3) (i : Nat) (cid : Int) : List (List Int) :=
  (List.range m.height).map (fun r =>
    (List.range m.width).map (fun c => if m.data r c i then cid else 0))

/-- Flattened row-major mask raster (lines 135-136). -/
def maskData (m : Mask3) (i : Nat) (cid : Int) : List Int :=
  (mask_msg m i cid).flatten

/-- One iteration of the loop of build_result_msg (lines 115-137) for
instance i with box b: compute the region, fetch the class id, resolve the
class name by Python list indexing, fetch the score, and flatten mask
instance i (the mask stack access requires i within the stack). -/
def buildEntry (cn : List String) (ds : DetectionSet) (i : Nat) (b : Box) :
    Except String Entry :=
  match npGet ds.class_ids i with
  | Except.error e => Except.error e
  | Except.ok cid =>
    match pyIndex cn cid with
    | none => Except.error "IndexError: list index out of range"
    | some name =>
      match npGet ds.scores i with
      | Except.error e => Except.error e
      | Except.ok sc =>
        if i < ds.masks.n then
          Except.ok { box := regionOfBox b, class_id := cid, class_name := name,
                      score := sc, mask := maskData ds.masks i cid }
        else
          Except.error "IndexError: mask index out of bounds"

/-- Loop of build_result_msg over the remaining boxes with the loop counter
starting at j, as by enumerate over the rois. -/
def buildFrom (cn : List String) (ds : DetectionSet) :
    Nat → List Box → Except String (List Entry)
  | _, [] => Except.ok []
  | j, b :: rest =>
    match buildEntry cn ds j b with
    | Except.error e => Except.error e
    | Except.ok en =>
      match buildFrom cn ds (j + 1) rest with
      | Except.error e => Except.error e
      | Except.ok es => Except.ok (en :: es)

/-- Model of build_result_msg (mask_rcnn_node.py lines 112-138): copy the
header of the incoming message, then for each instance in order append its
region, class id, class name, score and flattened mask raster to the five
parallel collections of the result. -/
def build_result_msg (cn : List String) (msg : ImageMsg) (ds : DetectionSet) :
    Except String ResultMsg :=
  match buildFrom cn ds 0 ds.rois with
  | Except.error e => Except.error e
  | Except.ok es =>
    Except.ok { header := msg.header,
                boxes := es.map Entry.box,
                class_ids := es.map Entry.class_id,
                class_names := es.map Entry.class_name,
                scores := es.map Entry.score,
                masks := es.map Entry.mask }

/-- One scheduler tick input: none when the mailbox yielded no frame, or
the claimed image message paired with the detection set the external model
returns for it. -/
abbrev TickInput : Type := Option (ImageMsg × DetectionSet)

/-- Model of the run loop of the node (mask_rcnn_node.py lines 82-110)
over a finite list of ticks: an empty tick is skipped; a tick with a frame
builds the result message and publishes it.  An exception raised by
build_result_msg propagates out of run (which has no handler), terminating
the loop, so no record of that tick or of any later tick is published. -/
def runLoop (cn : List String) : List TickInput → Except String (List ResultMsg)
  | [] => Except.ok []
  | none :: ts => runLoop cn ts
  | some (msg, ds) :: ts =>
    match build_result_msg cn msg ds with
    | Except.error e => Except.error e
    | Except.ok r =>
      match runLoop cn ts with
      | Except.error e => Except.error e
      | Except.ok rest => Except.ok (r :: rest)

/-- Numpy style reshape of a flat integer list back to height rows of
width entries: row r is the slice of length width starting at r times
width. -/
def reshapeHW (height width : Nat) (l : List Int) : List (List Int) :=
  (List.range height).map (fun r => (l.drop (r * width)).take width)

/-- Boolean mask slice of instance i, the source mask with the third index
fixed, as a list of rows. -/
def maskSlice (m : Mask3) (i : Nat) : List (List Bool) :=
  (List.range m.height).map (fun r => (List.range m.width).map (fun c => m.data r c i))

/-- Reconstruction of a boolean mask from an integer raster: a pixel is
foreground exactly when its value is nonzero (the raster writes 0 for
background). -/
def recoverMask (rows : List (List Int)) : List (List Bool) :=
  rows.map (fun row => row.map (fun v => v != 0))

/-- Well-formed detection set with respect to a class-name table: the
parallel collections share one instance count and every class id indexes
the table nonnegatively and within range (the invariant stated for the
detection set in the data model). -/
def WellFormed (cn : List String) (ds : DetectionSet) : Prop :=
  ds.class_ids.length = ds.rois.length ∧
  ds.scores.length = ds.rois.length ∧
  ds.masks.n = ds.rois.length ∧
  ∀ cid ∈ ds.class_ids, 0 ≤ cid ∧ cid < (cn.length : Int)

/-- Concrete class-name table used by the witnesses. -/
def cnEx : List String := ["BG", "person", "car"]

/-- Concrete camera message used by the witnesses. -/
def msgEx : ImageMsg := { header := 7 }

/-- Concrete well-formed one-instance detection set used by the witnesses:
box (top, left, bottom, right) = (10, 20, 50, 60), class id 1, score 0.95,
mask all true on a 2 by 2 frame. -/
def dsEx : DetectionSet :=
  { rois := [{ y1 := 10, x1 := 20, y2 := 50, x2 := 60 }],
    class_ids := [1],
    scores := [(19 : Rat) / 20],
    masks := { height := 2, width := 2, n := 1, data := fun _ _ _ => true } }

/-- Result record the builder produces for dsEx under cnEx. -/
def resEx : ResultMsg :=
  { header := 7,
    boxes := [{ x_offset := 20, y_offset := 10, height := 40, width := 40 }],
    class_ids := [1],
    class_names := ["person"],
    scores := [(19 : Rat) / 20],
    masks := [[1, 1, 1, 1]] }

/-- Concrete malformed detection set: its only instance has class id 5,
out of range for the table cnEx of length 3. -/
def dsBadEx : DetectionSet :=
  { rois := [{ y1 := 10, x1 := 20, y2 := 50, x2 := 60 }],
    class_ids := [5],
    scores := [(1 : Rat)],
    masks := { height := 2, width := 2, n := 1, data := fun _ _ _ => true } }

/-- Concrete empty detection set (zero instances). -/
def dsEmptyEx : DetectionSet :=
  { rois := [], class_ids := [], scores := [],
    masks := { height := 2, width := 2, n := 0, data := fun _ _ _ => false } }

/-- Concrete diagonal mask stack on a 2 by 2 frame. -/
def maskEx : Mask3 :=
  { height := 2, width := 2, n := 1, data := fun r c _ => r == c }

theorem depositSeq_of_successes_nil {α : Type} :
    ∀ (fs : List (Bool × α)) (s : Option α), successes fs = [] → depositSeq s fs = s := by
  intro fs
  induction fs with
  | nil => intro s _; rfl
  | cons af fs ih =>
    intro s h
    by_cases ha : af.1
    · simp [successes, ha] at h
    · simp [successes, ha] at h
      simpa [depositSeq, image_callback, ha] using ih s h

theorem depositSeq_eq_last_success {α : Type} :
    ∀ (fs : List (Bool × α)) (s : Option α) (f : α),
      (successes fs).getLast? = some f → depositSeq s fs = some f := by
  intro fs
  induction fs with
  | nil => intro s f h; simp [successes] at h
  | cons af fs ih =>
    intro s f h
    by_cases ha : af.1
    · rw [show successes (af :: fs) = af.2 :: successes fs by simp [successes, ha]] at h
      cases hsf : successes fs with
      | nil =>
        rw [hsf, List.getLast?_singleton] at h
        have hf : af.2 = f := by simpa using h
        simp only [depositSeq, image_callback, ha, if_pos]
        rw [depositSeq_of_successes_nil fs (some af.2) hsf, hf]
      | cons b l =>
        rw [hsf, List.getLast?_cons_cons] at h
        rw [← hsf] at h
        simp only [depositSeq, image_callback, ha, if_pos]
        exact ih _ f h
    · rw [show successes (af :: fs) = successes fs by simp [successes, ha]] at h
      simp only [depositSeq, image_callback, ha, if_neg, Bool.false_eq_true,
        not_false_iff]
      exact ih s f h

/-- C1: Mailbox last-write-wins.  For every sequence of deposit attempts
with no intervening claim, if the last successfully deposited frame is f,
then the next (successful) claim observes exactly f and clears the slot,
the slot holds at most one frame, and a further claim returns nothing:
the earlier deposited frames are overwritten and unrecoverable. -/
theorem mailbox_last_write_wins {α : Type} (s0 : Option α) (fs : List (Bool × α)) (f : α)
    (h : (successes fs).getLast? = some f) :
    mailboxClaim true (depositSeq s0 fs) = (some f, none) ∧
    holdCount (depositSeq s0 fs) ≤ 1 ∧
    mailboxClaim true (mailboxClaim true (depositSeq s0 fs)).2 = (none, none) := by
  have hd := depositSeq_eq_last_success fs s0 f h
  refine ⟨by rw [hd]; rfl, ?_, by rw [hd]; rfl⟩
  cases hs : depositSeq s0 fs <;> simp [holdCount]

/-- Witness for C1 at a concrete input: two successful deposits (frames 1
then 2) and one dropped attempt; the claim obtains frame 2. -/
theorem mailbox_last_write_wins_witness :
    (successes [(true, 1), (false, 3), (true, 2)]).getLast? = some 2 ∧
    mailboxClaim true (depositSeq (none : Option Nat) [(true, 1), (false, 3), (true, 2)]) =
      (some 2, none) :=
  ⟨by decide, (mailbox_last_write_wins none [(true, 1), (false, 3), (true, 2)] 2 (by decide)).1⟩

/-- C7: Neither mailbox operation blocks or errors on contention: a deposit
whose try-lock fails leaves the slot unchanged (the message is silently
dropped, the producer does not retry), and a claim whose try-lock fails
returns empty with the slot unchanged; both are total functions. -/
theorem mailbox_contention_no_block {α : Type} (f : α) (s : Option α) :
    image_callback false f s = s ∧ mailboxClaim false s = (none, s) :=
  ⟨rfl, rfl⟩

theorem runTrace_count_le {α : Type} [DecidableEq α] :
    ∀ (es : List (MEvent α)) (s : Option α) (f : α),
      List.count f (runTrace s es).2 ≤
        List.count f s.toList + List.count f (depositsOf es) := by
  intro es
  induction es with
  | nil => intro s f; simp [runTrace, depositsOf]
  | cons e es ih =>
    intro s f
    cases e with
    | dep ok g =>
      cases ok
      · have h := ih s f
        simp only [runTrace, depositsOf, image_callback, if_neg, Bool.false_eq_true,
          not_false_iff, List.count_cons]
        omega
      · have h := ih (some g) f
        simp only [runTrace, depositsOf, image_callback, if_pos, List.count_cons] at h ⊢
        simp only [Option.toList] at h
        cases s <;> simp only [Option.toList, List.count_nil, List.count_cons,
          List.count_singleton] at h ⊢ <;> omega
    | clm ok =>
      cases ok
      · have h := ih s f
        simpa [runTrace, depositsOf, mailboxClaim, Option.toList] using h
      · have h := ih none f
        simp only [runTrace, depositsOf, mailboxClaim, if_pos, List.count_append,
          Option.toList, List.count_nil] at h ⊢
        omega

/-- C4: a successful claim removes the held frame and clears the slot, each
claim yields at most one frame per tick, and over any trace of mailbox
events in which the deposited frames are pairwise distinct, the run loop
never obtains (hence never processes) the same deposited frame twice. -/
theorem claim_clears_and_never_reprocesses {α : Type} [DecidableEq α]
    (es : List (MEvent α)) (h : (depositsOf es).Nodup) :
    (∀ s : Option α, (mailboxClaim true s).2 = none) ∧
    (∀ s : Option α, ((mailboxClaim true s).1).toList.length ≤ 1) ∧
    ((runTrace (none : Option α) es).2).Nodup := by
  refine ⟨fun s => rfl, fun s => ?_, ?_⟩
  · cases s <;> simp [mailboxClaim, Option.toList]
  · rw [List.nodup_iff_count_le_one] at h ⊢
    intro a
    have hc := runTrace_count_le es none a
    simp only [Option.toList, List.count_nil, Nat.zero_add] at hc
    exact Nat.le_trans hc (h a)

/-- Witness for C4 at a concrete input: deposit frame 1, claim it, deposit
frame 2, claim it; the processed list is duplicate-free. -/
theorem claim_clears_and_never_reprocesses_witness :
    (depositsOf [MEvent.dep true (1 : Nat), MEvent.clm true,
                 MEvent.dep true 2, MEvent.clm true]).Nodup ∧
    ((runTrace (none : Option Nat)
        [MEvent.dep true 1, MEvent.clm true,
         MEvent.dep true 2, MEvent.clm true]).2).Nodup :=
  ⟨by decide,
   (claim_clears_and_never_reprocesses
      [MEvent.dep true 1, MEvent.clm true, MEvent.dep true 2, MEvent.clm true]
      (by decide)).2.2⟩

theorem pyIndex_of_nonneg {α : Type} (l : List α) (cid : Int) (h0 : 0 ≤ cid) :
    pyIndex l cid = l[cid.toNat]? := by
  have hne : ¬ cid < 0 := not_lt.mpr h0
  simp [pyIndex, hne, h0]

theorem pyIndex_some_of_lt {α : Type} (l : List α) (cid : Int)
    (h0 : 0 ≤ cid) (hl : cid < (l.length : Int)) :
    ∃ x, pyIndex l cid = some x := by
  rw [pyIndex_of_nonneg l cid h0]
  have hn : cid.toNat < l.length := by omega
  exact ⟨l[cid.toNat], List.getElem?_eq_getElem hn⟩

theorem buildEntry_ok_of (cn : List String) (ds : DetectionSet) (i : Nat) (b : Box)
    (cid : Int) (nm : String) (sc : Rat)
    (hc : ds.class_ids[i]? = some cid) (hn : pyIndex cn cid = some nm)
    (hs : ds.scores[i]? = some sc) (hm : i < ds.masks.n) :
    buildEntry cn ds i b = Except.ok
      { box := regionOfBox b, class_id := cid, class_name := nm,
        score := sc, mask := maskData ds.masks i cid } := by
  simp [buildEntry, npGet, hc, hn, hs, hm]

theorem buildEntry_ok_inv {cn : List String} {ds : DetectionSet} {i : Nat} {b : Box}
    {e : Entry} (h : buildEntry cn ds i b = Except.ok e) :
    ∃ cid nm sc, ds.class_ids[i]? = some cid ∧ pyIndex cn cid = some nm ∧
      ds.scores[i]? = some sc ∧ i < ds.masks.n ∧
      e = { box := regionOfBox b, class_id := cid, class_name := nm,
            score := sc, mask := maskData ds.masks i cid } := by
  cases hc : ds.class_ids[i]? with
  | none => simp [buildEntry, npGet, hc] at h
  | some cid =>
    cases hn : pyIndex cn cid with
    | none => simp [buildEntry, npGet, hc, hn] at h
    | some nm =>
      cases hs : ds.scores[i]? with
      | none => simp [buildEntry, npGet, hc, hn, hs] at h
      | some sc =>
        by_cases hm : i < ds.masks.n
        · simp only [buildEntry, npGet, hc, hn, hs, hm, if_pos] at h
          exact ⟨cid, nm, sc, rfl, hn, rfl, hm, (Except.ok.inj h).symm⟩
        · simp [buildEntry, npGet, hc, hn, hs, hm] at h

theorem buildFrom_ok_spec {cn : List String} {ds : DetectionSet} :
    ∀ (rois : List Box) (j : Nat) (es : List Entry),
      buildFrom cn ds j rois = Except.ok es →
      es.length = rois.length ∧
      ∀ (k : Nat) (b : Box), rois[k]? = some b →
        ∃ e, es[k]? = some e ∧ buildEntry cn ds (j + k) b = Except.ok e := by
  intro rois
  induction rois with
  | nil =>
    intro j es h
    have he : es = [] := (Except.ok.inj h).symm
    subst he
    exact ⟨rfl, fun k b hb => by simp at hb⟩
  | cons b rest ih =>
    intro j es h
    unfold buildFrom at h
    cases hb : buildEntry cn ds j b with
    | error m => rw [hb] at h; exact absurd h (by simp)
    | ok e =>
      rw [hb] at h
      cases hr : buildFrom cn ds (j + 1) rest with
      | error m => rw [hr] at h; exact absurd h (by simp)
      | ok es2 =>
        rw [hr] at h
        have he : es = e :: es2 := (Except.ok.inj h).symm
        subst he
        obtain ⟨hl, hk⟩ := ih (j + 1) es2 hr
        refine ⟨by simp [hl], ?_⟩
        intro k bb hkb
        cases k with
        | zero =>
          have hbb : bb = b := by simpa using hkb.symm
          subst hbb
          exact ⟨e, by simp, by simpa using hb⟩
        | succ k =>
          have hkb2 : rest[k]? = some bb := by simpa using hkb
          obtain ⟨e2, he2, hbe2⟩ := hk k bb hkb2
          refine ⟨e2, by simpa using he2, ?_⟩
          have harith : j + 1 + k = j + (k + 1) := by omega
          rw [← harith]
          exact hbe2

theorem buildFrom_total {cn : List String} {ds : DetectionSet} :
    ∀ (rois : List Box) (j : Nat),
      (∀ k, k < rois.length →
        (∃ cid, ds.class_ids[j + k]? = some cid ∧ 0 ≤ cid ∧ cid < (cn.length : Int)) ∧
        (∃ sc, ds.scores[j + k]? = some sc) ∧ j + k < ds.masks.n) →
      ∃ es, buildFrom cn ds j rois = Except.ok es := by
  intro rois
  induction rois with
  | nil => intro j _; exact ⟨[], rfl⟩
  | cons b rest ih =>
    intro j hcond
    obtain ⟨⟨cid, hc, h0, hlt⟩, ⟨sc, hs⟩, hm⟩ := hcond 0 (by simp)
    obtain ⟨nm, hn⟩ := pyIndex_some_of_lt cn cid h0 hlt
    simp only [Nat.add_zero] at hc hs hm
    obtain ⟨es2, hes2⟩ := ih (j + 1) (fun k hk => by
      have := hcond (k + 1) (by simpa using Nat.succ_lt_succ hk)
      have harith : j + (k + 1) = j + 1 + k := by omega
      rw [harith] at this
      exact this)
    refine ⟨{ box := regionOfBox b, class_id := cid, class_name := nm,
              score := sc, mask := maskData ds.masks j cid } :: es2, ?_⟩
    unfold buildFrom
    rw [buildEntry_ok_of cn ds j b cid nm sc hc hn hs hm, hes2]

theorem build_result_msg_ok_inv {cn : List String} {msg : ImageMsg} {ds : DetectionSet}
    {r : ResultMsg} (h : build_result_msg cn msg ds = Except.ok r) :
    ∃ es, buildFrom cn ds 0 ds.rois = Except.ok es ∧
      r = { header := msg.header,
            boxes := es.map Entry.box,
            class_ids := es.map Entry.class_id,
            class_names := es.map Entry.class_name,
            scores := es.map Entry.score,
            masks := es.map Entry.mask } := by
  unfold build_result_msg at h
  cases hf : buildFrom cn ds 0 ds.rois with
  | error m => rw [hf] at h; exact absurd h (by simp)
  | ok es => rw [hf] at h; exact ⟨es, rfl, (Except.ok.inj h).symm⟩

/-- C6: for every well-formed detection set with N instances the result
builder succeeds and produces a record whose boxes, class_ids, class_names,
scores and masks collections each have exactly N entries in the original
detection order, positionally aligned: at every index i the region, class
id, class name, score and flattened mask raster all describe instance i of
the detection set. -/
theorem result_record_parallel_aligned (cn : List String) (msg : ImageMsg)
    (ds : DetectionSet) (hwf : WellFormed cn ds) :
    ∃ r, build_result_msg cn msg ds = Except.ok r ∧
      r.boxes.length = ds.rois.length ∧
      r.class_ids.length = ds.rois.length ∧
      r.class_names.length = ds.rois.length ∧
      r.scores.length = ds.rois.length ∧
      r.masks.length = ds.rois.length ∧
      ∀ (i : Nat) (b : Box) (cid : Int) (sc : Rat),
        ds.rois[i]? = some b → ds.class_ids[i]? = some cid →
        ds.scores[i]? = some sc →
        r.boxes[i]? = some (regionOfBox b) ∧
        r.class_ids[i]? = some cid ∧
        r.class_names[i]? = pyIndex cn cid ∧
        r.scores[i]? = some sc ∧
        r.masks[i]? = some (maskData ds.masks i cid) := by
  obtain ⟨hci, hsc, hmn, hval⟩ := hwf
  have hcond : ∀ k, k < ds.rois.length →
      (∃ cid, ds.class_ids[0 + k]? = some cid ∧ 0 ≤ cid ∧ cid < (cn.length : Int)) ∧
      (∃ sc, ds.scores[0 + k]? = some sc) ∧ 0 + k < ds.masks.n := by
    intro k hk
    have hk1 : k < ds.class_ids.length := by omega
    have hk2 : k < ds.scores.length := by omega
    have hmem : ds.class_ids[k] ∈ ds.class_ids := List.getElem_mem hk1
    obtain ⟨h0, hlt⟩ := hval _ hmem
    refine ⟨⟨ds.class_ids[k], ?_, h0, hlt⟩, ⟨ds.scores[k], ?_⟩, by omega⟩
    · simp [List.getElem?_eq_getElem hk1]
    · simp [List.getElem?_eq_getElem hk2]
  obtain ⟨es, hes⟩ := buildFrom_total ds.rois 0 hcond
  obtain ⟨hlen, hspec⟩ := buildFrom_ok_spec ds.rois 0 es hes
  refine ⟨{ header := msg.header,
            boxes := es.map Entry.box,
            class_ids := es.map Entry.class_id,
            class_names := es.map Entry.class_name,
            scores := es.map Entry.score,
            masks := es.map Entry.mask }, ?_, by simp [hlen], by simp [hlen],
          by simp [hlen], by simp [hlen], by simp [hlen], ?_⟩
  · unfold build_result_msg
    rw [hes]
  · intro i b cid sc hb hcid hsc2
    obtain ⟨e, hei, hbe⟩ := hspec i b hb
    obtain ⟨cid2, nm, sc2, hc2, hn2, hs2, hm2, hee⟩ := buildEntry_ok_inv hbe
    simp only [Nat.zero_add] at hc2 hs2 hee
    rw [hcid] at hc2
    rw [hsc2] at hs2
    have hcc : cid = cid2 := Option.some.inj hc2
    have hss : sc = sc2 := Option.some.inj hs2
    subst hcc
    subst hss
    subst hee
    refine ⟨?_, ?_, ?_, ?_, ?_⟩ <;>
      simp [List.getElem?_map, hei, hn2]

/-- Witness for C6 at the concrete well-formed one-instance detection set
dsEx with table cnEx. -/
theorem result_record_parallel_aligned_witness :
    WellFormed cnEx dsEx ∧
    (∃ r, build_result_msg cnEx msgEx dsEx = Except.ok r ∧
      r.boxes.length = dsEx.rois.length ∧
      r.class_ids.length = dsEx.rois.length ∧
      r.class_names.length = dsEx.rois.length ∧
      r.scores.length = dsEx.rois.length ∧
      r.masks.length = dsEx.rois.length ∧
      ∀ (i : Nat) (b : Box) (cid : Int) (sc : Rat),
        dsEx.rois[i]? = some b → dsEx.class_ids[i]? = some cid →
        dsEx.scores[i]? = some sc →
        r.boxes[i]? = some (regionOfBox b) ∧
        r.class_ids[i]? = some cid ∧
        r.class_names[i]? = pyIndex cnEx cid ∧
        r.scores[i]? = some sc ∧
        r.masks[i]? = some (maskData dsEx.masks i cid)) :=
  ⟨⟨by decide, by decide, by decide, by decide⟩,
   result_record_parallel_aligned cnEx msgEx dsEx
     ⟨by decide, by decide, by decide, by decide⟩⟩

/-- C3: whenever the result builder produces a result record, the region of
entry i equals offset-x = left, offset-y = top, width = right - left,
height = bottom - top, computed from box i given in (top, left, bottom,
right) order, in exact integer pixel units. -/
theorem region_matches_box (cn : List String) (msg : ImageMsg) (ds : DetectionSet)
    (r : ResultMsg) (h : build_result_msg cn msg ds = Except.ok r)
    (i : Nat) (b : Box) (hb : ds.rois[i]? = some b) :
    r.boxes[i]? = some { x_offset := b.x1, y_offset := b.y1,
                         width := b.x2 - b.x1, height := b.y2 - b.y1 } := by
  obtain ⟨es, hes, hr⟩ := build_result_msg_ok_inv h
  obtain ⟨hlen, hspec⟩ := buildFrom_ok_spec ds.rois 0 es hes
  obtain ⟨e, hei, hbe⟩ := hspec i b hb
  obtain ⟨cid, nm, sc, hc2, hn2, hs2, hm2, hee⟩ := buildEntry_ok_inv hbe
  subst hr
  subst hee
  simp [List.getElem?_map, hei, regionOfBox]

/-- Witness for C3 at the concrete detection set dsEx: box
(top, left, bottom, right) = (10, 20, 50, 60) yields region
(offset-x, offset-y, width, height) = (20, 10, 40, 40). -/
theorem region_matches_box_witness :
    build_result_msg cnEx msgEx dsEx = Except.ok resEx ∧
    dsEx.rois[0]? = some { y1 := 10, x1 := 20, y2 := 50, x2 := 60 } ∧
    resEx.boxes[0]? = some { x_offset := 20, y_offset := 10, width := 40, height := 40 } :=
  ⟨rfl, rfl,
   region_matches_box cnEx msgEx dsEx resEx rfl 0
     { y1 := 10, x1 := 20, y2 := 50, x2 := 60 } rfl⟩

/-- C8: for every processed frame, the header (metadata token) of the
result record the builder publishes is exactly the header of the
originating message, copied unchanged. -/
theorem header_propagated (cn : List String) (msg : ImageMsg) (ds : DetectionSet)
    (r : ResultMsg) (h : build_result_msg cn msg ds = Except.ok r) :
    r.header = msg.header := by
  obtain ⟨es, _, hr⟩ := build_result_msg_ok_inv h
  subst hr
  rfl

/-- Witness for C8 at the concrete detection set dsEx. -/
theorem header_propagated_witness :
    build_result_msg cnEx msgEx dsEx = Except.ok resEx ∧ resEx.header = msgEx.header :=
  ⟨rfl, header_propagated cnEx msgEx dsEx resEx rfl⟩

/-- C10: for a detection set with zero instances the result builder still
succeeds, producing a record that carries the frame header and five empty
collections, and the run loop still publishes it: an empty detection
outcome is neither an error nor skipped. -/
theorem empty_detection_published (cn : List String) (msg : ImageMsg)
    (ds : DetectionSet) (hz : ds.rois = []) :
    build_result_msg cn msg ds =
      Except.ok { header := msg.header, boxes := [], class_ids := [],
                  class_names := [], scores := [], masks := [] } ∧
    runLoop cn [some (msg, ds)] =
      Except.ok [{ header := msg.header, boxes := [], class_ids := [],
                   class_names := [], scores := [], masks := [] }] := by
  have hb : build_result_msg cn msg ds =
      Except.ok { header := msg.header, boxes := [], class_ids := [],
                  class_names := [], scores := [], masks := [] } := by
    unfold build_result_msg
    rw [hz]
    rfl
  refine ⟨hb, ?_⟩
  unfold runLoop
  rw [hb]
  rfl

/-- Witness for C10 at the concrete empty detection set dsEmptyEx. -/
theorem empty_detection_published_witness :
    dsEmptyEx.rois = [] ∧
    build_result_msg cnEx msgEx dsEmptyEx =
      Except.ok { header := 7, boxes := [], class_ids := [],
                  class_names := [], scores := [], masks := [] } ∧
    runLoop cnEx [some (msgEx, dsEmptyEx)] =
      Except.ok [{ header := 7, boxes := [], class_ids := [],
                   class_names := [], scores := [], masks := [] }] :=
  ⟨rfl, (empty_detection_published cnEx msgEx dsEmptyEx rfl).1,
   (empty_detection_published cnEx msgEx dsEmptyEx rfl).2⟩

theorem pyIndex_none_of_ge {α : Type} (l : List α) (cid : Int)
    (hge : (l.length : Int) ≤ cid) : pyIndex l cid = none := by
  have h0 : 0 ≤ cid := le_trans (Int.ofNat_nonneg l.length) hge
  rw [pyIndex_of_nonneg l cid h0]
  rw [List.getElem?_eq_none_iff]
  omega

/-- C2 counterexample: with the class-name table cnEx of length 3, a first
tick whose detection set dsBadEx carries class id 5 and a second,
well-formed tick dsEx.  The builder raises the out-of-range error and the
record of the first tick is indeed not published, but the loop does not
proceed to the next tick: the whole loop run ends in the error, the second
tick is never processed and nothing at all is published, so the failure is
fatal rather than isolated to the offending tick as the claim states. -/
theorem out_of_range_not_isolated_counterexample :
    build_result_msg cnEx msgEx dsBadEx =
      Except.error "IndexError: list index out of range" ∧
    runLoop cnEx [some (msgEx, dsBadEx), some (msgEx, dsEx)] =
      Except.error "IndexError: list index out of range" ∧
    (runLoop cnEx [some (msgEx, dsBadEx), some (msgEx, dsEx)]).isOk = false :=
  ⟨rfl, rfl, rfl⟩

/-- C2 amended: when a detection set contains an instance (within the
iterated range) whose class id is at or above the class-name table length,
the result builder raises an out-of-range error and that tick publishes no
result record; the error propagates out of the unguarded run loop and
terminates it, so no later tick is processed either — the failure is fatal
to the scheduler, not isolated to the tick. -/
theorem out_of_range_fatal (cn : List String) (msg : ImageMsg) (ds : DetectionSet)
    (ts : List TickInput) (i : Nat) (cid : Int)
    (hi : i < ds.rois.length) (hc : ds.class_ids[i]? = some cid)
    (hge : (cn.length : Int) ≤ cid) :
    ∃ e, build_result_msg cn msg ds = Except.error e ∧
      runLoop cn (some (msg, ds) :: ts) = Except.error e := by
  cases hb : build_result_msg cn msg ds with
  | ok r =>
    exfalso
    obtain ⟨es, hes, hr⟩ := build_result_msg_ok_inv hb
    obtain ⟨hlen, hspec⟩ := buildFrom_ok_spec ds.rois 0 es hes
    have hbx : ds.rois[i]? = some ds.rois[i] := List.getElem?_eq_getElem hi
    obtain ⟨e, hei, hbe⟩ := hspec i _ hbx
    obtain ⟨cid2, nm, sc, hc2, hn2, hs2, hm2, hee⟩ := buildEntry_ok_inv hbe
    simp only [Nat.zero_add] at hc2
    rw [hc] at hc2
    have hcc : cid = cid2 := Option.some.inj hc2
    subst hcc
    rw [pyIndex_none_of_ge cn cid hge] at hn2
    exact Option.noConfusion hn2
  | error e =>
    refine ⟨e, rfl, ?_⟩
    unfold runLoop
    rw [hb]

/-- Witness for the amended C2 at the concrete malformed detection set
dsBadEx followed by a well-formed tick. -/
theorem out_of_range_fatal_witness :
    0 < dsBadEx.rois.length ∧
    dsBadEx.class_ids[0]? = some 5 ∧
    (cnEx.length : Int) ≤ 5 ∧
    (∃ e, build_result_msg cnEx msgEx dsBadEx = Except.error e ∧
      runLoop cnEx (some (msgEx, dsBadEx) :: [some (msgEx, dsEx)]) = Except.error e) :=
  ⟨by decide, rfl, by decide,
   out_of_range_fatal cnEx msgEx dsBadEx [some (msgEx, dsEx)] 0 5
     (by decide) rfl (by decide)⟩

/-- C9: the class-name lookup of the result builder (Python list indexing,
pyIndex) raises an out-of-range error exactly when the class id is at or
above the table length or strictly below the negated table length; a
negative class id within one table length resolves silently by wrap-around
to the entry at index table length + class id, with no error; and every
entry the builder produces resolved its class name through exactly this
lookup. -/
theorem class_name_lookup_wraparound (cn : List String) (cid : Int) :
    (pyIndex cn cid = none ↔
      ((cn.length : Int) ≤ cid ∨ cid < -(cn.length : Int))) ∧
    (-(cn.length : Int) ≤ cid → cid < 0 →
      pyIndex cn cid = cn[((cn.length : Int) + cid).toNat]? ∧
      ∃ nm, pyIndex cn cid = some nm) ∧
    (∀ (ds : DetectionSet) (i : Nat) (b : Box) (e : Entry),
      buildEntry cn ds i b = Except.ok e →
      pyIndex cn e.class_id = some e.class_name) := by
  refine ⟨?_, ?_, ?_⟩
  · by_cases hneg : cid < 0
    · have hj : (if cid < 0 then (cn.length : Int) + cid else cid) =
          (cn.length : Int) + cid := if_pos hneg
      by_cases hj0 : 0 ≤ (cn.length : Int) + cid
      · rw [show pyIndex cn cid = cn[((cn.length : Int) + cid).toNat]? by
          simp [pyIndex, hneg, hj0]]
        rw [List.getElem?_eq_none_iff]
        omega
      · rw [show pyIndex cn cid = none by simp [pyIndex, hneg, hj0]]
        simp only [true_iff]
        omega
    · have h0 : 0 ≤ cid := not_lt.mp hneg
      rw [pyIndex_of_nonneg cn cid h0]
      rw [List.getElem?_eq_none_iff]
      omega
  · intro h1 h2
    have hj0 : 0 ≤ (cn.length : Int) + cid := by omega
    have heq : pyIndex cn cid = cn[((cn.length : Int) + cid).toNat]? := by
      simp [pyIndex, h2, hj0]
    refine ⟨heq, ?_⟩
    have hlt : ((cn.length : Int) + cid).toNat < cn.length := by omega
    exact ⟨cn[((cn.length : Int) + cid).toNat],
      by rw [heq]; exact List.getElem?_eq_getElem hlt⟩
  · intro ds i b e hbe
    obtain ⟨cid2, nm, sc, hc2, hn2, hs2, hm2, hee⟩ := buildEntry_ok_inv hbe
    subst hee
    exact hn2

/-- Witness for C9 at the concrete table cnEx of length 3 and class id -1:
the lookup silently resolves to the entry at index 2. -/
theorem class_name_lookup_wraparound_witness :
    -((cnEx.length : Int)) ≤ -1 ∧ (-1 : Int) < 0 ∧
    (pyIndex cnEx (-1) = cnEx[((cnEx.length : Int) + (-1)).toNat]? ∧
     ∃ nm, pyIndex cnEx (-1) = some nm) :=
  ⟨by decide, by decide,
   (class_name_lookup_wraparound cnEx (-1)).2.1 (by decide) (by decide)⟩

theorem uniform_flatten_length {W : Nat} :
    ∀ (rows : List (List Int)), (∀ row ∈ rows, row.length = W) →
      rows.flatten.length = rows.length * W := by
  intro rows
  induction rows with
  | nil => intro _; simp
  | cons r0 rest ih =>
    intro h
    have hr0 : r0.length = W := h r0 (by simp)
    have hrest : ∀ row ∈ rest, row.length = W := fun row hm => h row (by simp [hm])
    rw [List.flatten_cons, List.length_append, hr0, ih hrest, List.length_cons]
    ring

theorem reshape_flatten {W : Nat} :
    ∀ (rows : List (List Int)), (∀ row ∈ rows, row.length = W) →
      reshapeHW rows.length W rows.flatten = rows := by
  intro rows
  induction rows with
  | nil => intro _; rfl
  | cons r0 rest ih =>
    intro h
    have hr0 : r0.length = W := h r0 (by simp)
    have hrest : ∀ row ∈ rest, row.length = W := fun row hm => h row (by simp [hm])
    unfold reshapeHW
    rw [List.length_cons, List.range_succ_eq_map, List.map_cons, List.map_map]
    congr 1
    · rw [Nat.zero_mul, List.drop_zero, List.flatten_cons, ← hr0, List.take_left]
    · have hih := ih hrest
      unfold reshapeHW at hih
      refine Eq.trans ?_ hih
      apply List.map_congr_left
      intro k hk
      simp only [Function.comp_apply]
      rw [List.flatten_cons]
      have harith : Nat.succ k * W = r0.length + k * W := by
        rw [hr0, Nat.succ_mul]
        generalize k * W = mm
        omega
      rw [harith, List.drop_append]

theorem flatten_getElem_uniform {W : Nat} :
    ∀ (rows : List (List Int)) (r c : Nat), (∀ row ∈ rows, row.length = W) →
      c < W →
      rows.flatten[r * W + c]? = rows[r]?.bind (fun row => row[c]?) := by
  intro rows
  induction rows with
  | nil => intro r c _ _; simp
  | cons r0 rest ih =>
    intro r c h hc
    have hr0 : r0.length = W := h r0 (by simp)
    have hrest : ∀ row ∈ rest, row.length = W := fun row hm => h row (by simp [hm])
    cases r with
    | zero =>
      rw [List.flatten_cons, Nat.zero_mul, Nat.zero_add,
        List.getElem?_append_left (by omega)]
      simp
    | succ r =>
      rw [List.flatten_cons]
      have hidx : Nat.succ r * W + c = r0.length + (r * W + c) := by
        rw [hr0, Nat.succ_mul]
        generalize r * W = mm
        omega
      rw [hidx, List.getElem?_append_right (by omega)]
      rw [Nat.add_sub_cancel_left]
      rw [ih r c hrest hc]
      simp

/-- C5 amended: for every mask stack, instance i and nonzero class id,
flattening mask instance i produces a row-major raster of length height
times width whose foreground pixels equal the class id and background
pixels 0, and reshaping the raster back to (height, width) rows and taking
nonzero as foreground reconstructs the original boolean mask slice exactly
(the round trip of the claim holds whenever the class id is nonzero). -/
theorem mask_flatten_roundtrip (m : Mask3) (i : Nat) (cid : Int) (hcid : cid ≠ 0) :
    (maskData m i cid).length = m.height * m.width ∧
    (∀ r c, r < m.height → c < m.width →
      (maskData m i cid)[r * m.width + c]? =
        some (if m.data r c i then cid else 0)) ∧
    recoverMask (reshapeHW m.height m.width (maskData m i cid)) = maskSlice m i := by
  have hrows : ∀ row ∈ mask_msg m i cid, row.length = m.width := by
    intro row hm
    unfold mask_msg at hm
    obtain ⟨r, hr, hrow⟩ := List.mem_map.mp hm
    rw [← hrow]
    simp
  have hlenrows : (mask_msg m i cid).length = m.height := by
    unfold mask_msg
    simp
  refine ⟨?_, ?_, ?_⟩
  · unfold maskData
    rw [uniform_flatten_length (mask_msg m i cid) hrows, hlenrows]
  · intro r c hr hc
    unfold maskData
    rw [flatten_getElem_uniform (mask_msg m i cid) r c hrows hc]
    simp [mask_msg, List.getElem?_map, List.getElem?_range, hr, hc]
  · unfold maskData
    have h1 : reshapeHW m.height m.width (mask_msg m i cid).flatten =
        mask_msg m i cid := by
      have h2 := reshape_flatten (mask_msg m i cid) hrows
      rwa [hlenrows] at h2
    rw [h1]
    unfold recoverMask mask_msg maskSlice
    rw [List.map_map]
    apply List.map_congr_left
    intro r hr
    simp only [Function.comp_apply, List.map_map]
    apply List.map_congr_left
    intro c hc
    simp only [Function.comp_apply]
    cases hd : m.data r c i
    · simp
    · simp [bne_iff_ne, hcid]

/-- Witness for the amended C5 at the concrete diagonal mask maskEx with
class id 2. -/
theorem mask_flatten_roundtrip_witness :
    (2 : Int) ≠ 0 ∧
    recoverMask (reshapeHW maskEx.height maskEx.width (maskData maskEx 0 2)) =
      maskSlice maskEx 0 :=
  ⟨by decide, (mask_flatten_roundtrip maskEx 0 2 (by decide)).2.2⟩

/-- C5 counterexample: with class id 0 (the value the code would write for
a background-class instance) the foreground pixels of the raster are 0,
identical to background: flattening the one-row mask (true, false) and the
one-row mask (false, false) gives the same all-zero raster even though the
masks differ, so no reshaping can reconstruct the original boolean mask,
and in particular the nonzero-as-foreground reconstruction of the reshaped
raster differs from the original mask slice.  The round trip asserted by
the claim therefore fails at class id 0. -/
theorem mask_flatten_roundtrip_counterexample :
    maskData { height := 1, width := 2, n := 1, data := fun _ c _ => c == 0 } 0 0 =
      maskData { height := 1, width := 2, n := 1, data := fun _ _ _ => false } 0 0 ∧
    maskSlice { height := 1, width := 2, n := 1, data := fun _ c _ => c == 0 } 0 ≠
      maskSlice { height := 1, width := 2, n := 1, data := fun _ _ _ => false } 0 ∧
    recoverMask (reshapeHW 1 2
        (maskData { height := 1, width := 2, n := 1, data := fun _ c _ => c == 0 } 0 0)) ≠
      maskSlice { height := 1, width := 2, n := 1, data := fun _ c _ => c == 0 } 0 :=
  ⟨rfl, by decide, by decide⟩
